import Mathlib

/-!
Shallow embedding of the Fikse search prototype (hybrid search endpoint,
intent classifier, conversation agent and order builder) together with
proofs about the embedded code.

Text is modelled as `String` / `List Char` (ASCII scope).  Python floats
are modelled as `ℚ`; a value whose `float(...)` conversion can fail is an
`Option ℚ`.  External collaborators (SymSpell, spaCy, the embedding model,
the FAISS index, the Ollama generative fallback and the HTTP layer) are
parameters of the embedded functions: the corrected query string, the
retrieved candidate list, the raw generative-classifier reply, the search
service reply, and the generated order id / timestamp are all arguments.
-/

namespace Fikse

/-! ### String primitives (Python `str` operations, ASCII scope) -/

/-- Python `str.lower` on a character (ASCII). -/
def lowChar (c : Char) : Char := c.toLower

/-- Python `str.lower` on a character list. -/
def lowerL (l : List Char) : List Char := l.map lowChar

/-- Python `str.lower` of a string, as a character list. -/
def lowerS (s : String) : List Char := lowerL s.data

/-- The needle starts the haystack (used to implement Python `in`). -/
def leadsWith : List Char → List Char → Bool
  | [], _ => true
  | _ :: _, [] => false
  | a :: as, b :: bs => a == b && leadsWith as bs

/-- Python substring test `needle in hay`. -/
def occursIn (n : List Char) : List Char → Bool
  | [] => n.isEmpty
  | c :: cs => leadsWith n (c :: cs) || occursIn n cs

/-- Whitespace as stripped/split by Python (ASCII scope). -/
def isWS (c : Char) : Bool := c.isWhitespace

/-- Python `str.strip()`. -/
def pyStrip (l : List Char) : List Char :=
  ((l.dropWhile isWS).reverse.dropWhile isWS).reverse

/-- Python `re.match(r"^[0-9]+$", text.strip())` as a Boolean. -/
def pyNumericMatch (s : String) : Bool :=
  let t := pyStrip s.data
  !t.isEmpty && t.all (·.isDigit)

/-- Word character for the regex `\b` boundary and `\w` (ASCII scope). -/
def isWordChar (c : Char) : Bool := c.isAlphanum || c == '_'

/-- Maximal runs of characters satisfying `keep`; `cur` is the reversed
run currently being collected. -/
def runsByAux (keep : Char → Bool) (cur : List Char) : List Char → List (List Char)
  | [] => if cur.isEmpty then [] else [cur.reverse]
  | c :: cs =>
    if keep c then runsByAux keep (c :: cur) cs
    else if cur.isEmpty then runsByAux keep [] cs
    else cur.reverse :: runsByAux keep [] cs

/-- Maximal runs of characters satisfying `keep`, in order. -/
def runsBy (keep : Char → Bool) (l : List Char) : List (List Char) :=
  runsByAux keep [] l

/-- Decimal value of a digit list. -/
def digitsVal (l : List Char) : Nat :=
  l.foldl (fun a c => 10 * a + (c.toNat - '0'.toNat)) 0

/-- `extract_price` from `Model_2/app.py`:
`re.search(r"\b(\d{2,5})\b", text)` returns the first maximal `\w`-run
that consists entirely of digits and has length 2 to 5 (a digit group
embedded in a longer word run has no `\b` boundary, and a digit run of
length 1 or more than 5 cannot satisfy `\d{2,5}` between two boundaries). -/
def extract_price (s : String) : Option Nat :=
  (runsBy isWordChar s.data).findSome? fun r =>
    if r.all (·.isDigit) && decide (2 ≤ r.length) && decide (r.length ≤ 5)
    then some (digitsVal r) else none

/-- Python truthiness of the optional extracted price (`if target_price:`):
`None` and `0` are falsy. -/
def truthyPrice : Option Nat → Bool
  | none => false
  | some n => n != 0

/-- Digits possibly separated by single underscores, as accepted by the
Python `int` constructor; `none` when invalid. -/
def parseDigitsUnd (l : List Char) : Option Nat :=
  let parts := l.splitOn '_'
  if parts.all (fun p => !p.isEmpty && p.all (·.isDigit))
  then some (digitsVal (l.filter (· != '_'))) else none

/-- Python `int(s)` on a string: strip, optional sign, digits with
optional single underscores between digits; `none` when it raises
`ValueError` (ASCII scope). -/
def pyInt (s : String) : Option Int :=
  match pyStrip s.data with
  | [] => none
  | '+' :: rest => (parseDigitsUnd rest).map Int.ofNat
  | '-' :: rest => (parseDigitsUnd rest).map fun n => -(n : Int)
  | l => (parseDigitsUnd l).map Int.ofNat

/-! ### Regex whole-word search (`\b word \b`) -/

/-- The position after `p` is a `\b` boundary before a word character. -/
def boundaryB : Option Char → Bool
  | none => true
  | some c => !isWordChar c

/-- The position before `l` is a `\b` boundary after a word character. -/
def afterB : List Char → Bool
  | [] => true
  | c :: _ => !isWordChar c

/-- Scan for an occurrence of `w` flanked by `\b` boundaries; `p` is the
character just before the current position. -/
def wwSearchAux (w : List Char) (p : Option Char) : List Char → Bool
  | [] => boundaryB p && leadsWith w [] && afterB []
  | c :: cs =>
    (boundaryB p && leadsWith w (c :: cs) && afterB ((c :: cs).drop w.length))
      || wwSearchAux w (some c) cs

/-- `re.search(r"\b" + w + r"\b", t)` as a Boolean (for a word `w` made of
word characters). -/
def wholeWordIn (w : String) (tl : List Char) : Bool :=
  wwSearchAux w.data none tl

/-- Some word of the list occurs whole-word in the text. -/
def anyWholeWord (ws : List String) (tl : List Char) : Bool :=
  ws.any fun w => wholeWordIn w tl

/-! ### Hybrid search engine (`Model_2/app.py`, `search_api`)

The embedding starts from the corrected query (SymSpell is external) and
from the candidate list returned by the FAISS index (external); the code
pairs each retrieved row with its similarity score. -/

/-- A catalog row as used by `search_api` (the dataset columns it reads).
`Price` is the result of `float(row["Price"])`: `none` when that
conversion raises. -/
structure Row where
  Service : String
  Description : String
  garmentType : String
  repairerType : String
  Price : Option ℚ
  deriving DecidableEq

/-- `str(row["Service"]).lower()`. -/
def serviceL (r : Row) : List Char := lowerS r.Service

/-- `str(row["Description"]).lower()`. -/
def descL (r : Row) : List Char := lowerS r.Description

/-- `str(row["Type of garment in category"]).lower()`. -/
def garmentL (r : Row) : List Char := lowerS r.garmentType

/-- `str(row["Type of Repairer"]).lower()`. -/
def repairerL (r : Row) : List Char := lowerS r.repairerType

/-- `search_terms`: tokens of the lowercased corrected query longer than
two characters (`corrected_query.lower().split()`, keep `len > 2`). -/
def searchTerms (corrected : String) : List (List Char) :=
  (runsBy (fun c => !(isWS c)) (lowerS corrected)).filter fun t => decide (2 < t.length)

/-- The inner term loop of the classification stage, for one candidate
row: each entry is a bucket label together with the `match_detail`
string.  A term equal to the service field or contained in it appends and
leaves the loop (`break`); a term contained in the description or in the
garment/repairer fields appends and continues; other terms are skipped. -/
def rowScan (r : Row) : List (List Char) → List (String × List Char)
  | [] => []
  | t :: ts =>
    if t == serviceL r then [("exact_service", "exact_service:".data ++ t)]
    else if occursIn t (serviceL r) then [("partial_service", "partial_service:".data ++ t)]
    else if occursIn t (descL r) then ("description", "description:".data ++ t) :: rowScan r ts
    else if occursIn t (garmentL r) || occursIn t (repairerL r) then
      ("general", "general:".data ++ t) :: rowScan r ts
    else rowScan r ts

/-- All bucket entries of one candidate: the scan entries, or the single
`semantic_only` entry when `match_found` stayed false. -/
def rowBuckets (r : Row) (terms : List (List Char)) : List (String × List Char) :=
  match rowScan r terms with
  | [] => [("semantic", "semantic_only".data)]
  | es => es

/-- One of the five match-group lists built by the classification loop:
rows in retrieval order, each contributing its entries for this label in
scan order (this is the order of the Python `append` calls). -/
def bucketOf (label : String) (terms : List (List Char)) (cands : List (Row × ℚ)) :
    List (Row × ℚ × List Char) :=
  (cands.map fun rs =>
    ((rowBuckets rs.1 terms).filter fun e => e.1 == label).map fun e => (rs.1, rs.2, e.2)).flatten

/-- A returned search result (`row_dict` with the extra keys set by the
assembly loop). -/
structure SResult where
  row : Row
  score : ℚ
  match_type : String
  match_detail : List Char
  search_terms : List (List Char)
  deriving DecidableEq

/-- `match_group.sort(key=lambda x: x[1], reverse=True)`: stable sort by
similarity score descending. -/
def scoreGE (a b : Row × ℚ × List Char) : Bool := decide (b.2.1 ≤ a.2.1)

/-- Insert `a` before the first element `b` with `le a b` (the insertion
step of a stable insertion sort). -/
def insertLe {α : Type} (le : α → α → Bool) (a : α) : List α → List α
  | [] => [a]
  | b :: bs => if le a b then a :: b :: bs else b :: insertLe le a bs

/-- Stable sort by the total comparison `le` (structural recursion, so it
evaluates by kernel reduction).  For a total transitive comparison a
stable sorted permutation is unique, so this equals the stable Python
`list.sort`. -/
def stableSortBy {α : Type} (le : α → α → Bool) : List α → List α
  | [] => []
  | a :: as => insertLe le a (stableSortBy le as)

/-- A match group sorted by similarity score descending (stable). -/
def sortGroup (g : List (Row × ℚ × List Char)) : List (Row × ℚ × List Char) :=
  stableSortBy scoreGE g

/-- The result records contributed by one whole sorted labeled group. -/
def labelGroup (label : String) (terms : List (List Char))
    (g : List (Row × ℚ × List Char)) : List SResult :=
  (sortGroup g).map fun e => ⟨e.1, e.2.1, label, e.2.2, terms⟩

/-- One iteration of the assembly loop (`STAGE 3`): skip when already
full, otherwise sort the group and take the remaining slots. -/
def addGroup (terms : List (List Char)) (acc : List SResult)
    (g : List (Row × ℚ × List Char) × String) : List SResult :=
  if 10 ≤ acc.length then acc
  else acc ++ ((sortGroup g.1).take (10 - acc.length)).map fun e =>
    ⟨e.1, e.2.1, g.2, e.2.2, terms⟩

/-- The five bucket labels in assembly priority order. -/
def bucketLabels : List String :=
  ["exact_service", "partial_service", "description", "general", "semantic"]

/-- `all_match_groups` paired with their labels. -/
def matchGroups (terms : List (List Char)) (cands : List (Row × ℚ)) :
    List (List (Row × ℚ × List Char) × String) :=
  bucketLabels.map fun b => (bucketOf b terms cands, b)

/-- `final_results` just after the assembly loop (before the price
filter). -/
def assembled (corrected : String) (cands : List (Row × ℚ)) : List SResult :=
  (matchGroups (searchTerms corrected) cands).foldl (addGroup (searchTerms corrected)) []

/-- Absolute value of an integer, by cases on the sign (kernel-computable). -/
def intAbs : Int → Int
  | .ofNat n => .ofNat n
  | .negSucc n => .ofNat (n + 1)

/-- `abs(p - target) <= 50` for a rational `p`, computed on the
numerator/denominator representation so that it evaluates by reduction
(the theorem `priceNear_iff` below certifies that this equals
the inequality on rationals). -/
def priceNear (target : Nat) (p : ℚ) : Bool :=
  decide (intAbs (p.num - (target : Int) * (p.den : Int)) ≤ 50 * (p.den : Int))

/-- `is_price_match` from the price-filter stage: the `try/except` around
`float(result["Price"])` is the `none` branch, which returns `False`. -/
def is_price_match (target : Nat) (r : SResult) : Bool :=
  match r.row.Price with
  | none => false
  | some p => priceNear target p

/-- The list comprehension applying `is_price_match`. -/
def priceFilter (target : Nat) (l : List SResult) : List SResult :=
  l.filter (is_price_match target)

/-- `search_api` from the corrected query on: classification, assembly,
price filter behind the truthiness test `if target_price:`, and the final
`final_results[:10]`. -/
def search_core (corrected : String) (cands : List (Row × ℚ)) : List SResult :=
  (if truthyPrice (extract_price corrected)
   then priceFilter ((extract_price corrected).getD 0) (assembled corrected cands)
   else assembled corrected cands).take 10

/-- Written from the words of the spec, for comparison with `assembled`:
sort each bucket by score descending, concatenate the buckets in priority
order, cap at 10 results. -/
def specBucketConcat (corrected : String) (cands : List (Row × ℚ)) : List SResult :=
  ((bucketLabels.map fun b =>
    labelGroup b (searchTerms corrected) (bucketOf b (searchTerms corrected) cands)).flatten).take 10

/-! ### Intent classifier and context extraction
(`Model_2/agent_hybrid.py`, `detect_intent_and_context`) -/

/-- The extracted-entity record; the Python dict always carries all three
keys, with value `None` for a category not found. -/
structure Ctx where
  garment_type : Option String
  damage_type : Option String
  fabric_type : Option String
  deriving DecidableEq

/-- The empty context (all three keys `None`). -/
def emptyCtx : Ctx := ⟨none, none, none⟩

/-- The garment vocabulary, in table order. -/
def garments : List String :=
  ["dress", "shirt", "pants", "jacket", "coat", "blouse", "skirt", "suit",
   "jeans", "trousers", "sweater", "cardigan", "blazer", "shorts", "top",
   "outfit", "clothing", "garment", "clothes"]

/-- The fabric vocabulary, in table order. -/
def fabrics : List String :=
  ["silk", "cotton", "wool", "linen", "polyester", "denim", "leather",
   "cashmere", "satin", "chiffon", "velvet", "corduroy"]

/-- The damage vocabulary, in table order. -/
def damage_types : List String :=
  ["tear", "hole", "stain", "zipper", "button", "seam", "hem", "rip",
   "worn", "faded", "shrunk", "stretched", "loose", "tight", "broken",
   "damaged", "ruined", "falling apart", "needs fixing"]

/-- Context extraction: first substring hit per category in table order;
when both a fabric and a garment are found the garment becomes
`"{fabric} {garment}"`. -/
def extractContext (text : String) : Ctx :=
  let tl := lowerS text
  let g0 := garments.find? fun w => occursIn w.data tl
  let f := fabrics.find? fun w => occursIn w.data tl
  let g := match f, g0 with
           | some fb, some gm => some (fb ++ " " ++ gm)
           | _, _ => g0
  let d := damage_types.find? fun w => occursIn w.data tl
  { garment_type := g, damage_type := d, fabric_type := f }

/-- `context["garment_type"] or context["fabric_type"] or
context["damage_type"]` (the extracted values are nonempty vocabulary
strings, so Python truthiness is `isSome`). -/
def ctxAny (c : Ctx) : Bool :=
  c.garment_type.isSome || c.fabric_type.isSome || c.damage_type.isSome

/-- The labels accepted from the generative fallback classifier. -/
def valid_intents : List String :=
  ["repair_request", "greeting", "service_selection", "confirmation", "unknown"]

/-- `ai_classify_intent`: `resp` is the raw reply of the external model,
`none` when the call raised.  The reply is stripped, lowercased and
validated; an invalid or failed reply degrades to `repair_request` when
any context was found, else `unknown`. -/
def ai_classify_intent (resp : Option String) (ctx : Ctx) : String :=
  match resp with
  | some r =>
    let r2 : String := ⟨lowerL (pyStrip r.data)⟩
    if r2 ∈ valid_intents then r2
    else if ctxAny ctx then "repair_request" else "unknown"
  | none => if ctxAny ctx then "repair_request" else "unknown"

/-- The whole-word confirmation test
`re.search(r"\b(yes|confirm|okay|ok)\b|looks good", text_lower)`: the
second alternative is a plain substring. -/
def confirmHit (tl : List Char) : Bool :=
  anyWholeWord ["yes", "confirm", "okay", "ok"] tl || occursIn "looks good".data tl

/-- `re.search(r"\b(no|cancel|nevermind|back)\b", text_lower)`. -/
def cancelHit (tl : List Char) : Bool :=
  anyWholeWord ["no", "cancel", "nevermind", "back"] tl

/-- `re.search(r"\b(hi|hello|hey|start|begin)\b", text_lower)`. -/
def greetHit (tl : List Char) : Bool :=
  anyWholeWord ["hi", "hello", "hey", "start", "begin"] tl

/-- `detect_intent_and_context`: context extraction always runs first,
then the rules in order (numeric, confirmation, cancel, greeting,
context, generative fallback). -/
def detect_intent_and_context (resp : Option String) (text : String) : String × Ctx :=
  let tl := lowerS text
  let ctx := extractContext text
  if pyNumericMatch text then ("service_selection", ctx)
  else if confirmHit tl then ("confirmation", ctx)
  else if cancelHit tl then ("cancel", ctx)
  else if greetHit tl then ("greeting", ctx)
  else if ctxAny ctx then ("repair_request", ctx)
  else (ai_classify_intent resp ctx, ctx)

/-! ### Order data model and builders -/

/-- `ServiceItem` (pydantic model shared by both agents). -/
structure ServiceItem where
  id : String
  service : String
  description : String
  price : ℚ
  garment_type : String
  repairer_type : String
  estimated_hours : Option ℚ
  deriving DecidableEq

/-- `OrderSummary` (pydantic model shared by both agents). -/
structure OrderSummary where
  order_id : String
  services : List ServiceItem
  total_price : ℚ
  estimated_total_hours : Option ℚ
  created_at : String
  deriving DecidableEq

/-- `[s.estimated_hours for s in services if s.estimated_hours is not None]`. -/
def presentHours (ss : List ServiceItem) : List ℚ :=
  ss.filterMap (·.estimated_hours)

/-- `create_order_summary` from `Fikse_Agent/agent.py`; the generated id
and the wall-clock timestamp are arguments. -/
def create_order_summary (ss : List ServiceItem) (oid ts : String) : OrderSummary :=
  { order_id := oid
    services := ss
    total_price := (ss.map (·.price)).sum
    estimated_total_hours :=
      if (presentHours ss).isEmpty then none else some (presentHours ss).sum
    created_at := ts }

/-- The hours kept by the generator
`(s.estimated_hours for s in ... if s.estimated_hours)`: Python
truthiness drops both `None` and `0.0`. -/
def truthyHours (ss : List ServiceItem) : List ℚ :=
  ss.filterMap fun s =>
    match s.estimated_hours with
    | none => none
    | some h => if h = 0 then none else some h

/-- The final `OrderSummary` built inline by `hybrid_agent` on
confirmation (`agent_hybrid.py`): `sum` of a generator is a number even
when the generator is empty, so the hours aggregate is always present. -/
def hybridFinalizeOrder (ss : List ServiceItem) (oid ts : String) : OrderSummary :=
  { order_id := oid
    services := ss
    total_price := (ss.map (·.price)).sum
    estimated_total_hours := some (truthyHours ss).sum
    created_at := ts }

/-- The order preview built on a valid selection (`order_id="PREVIEW"`,
empty timestamp). -/
def previewOrder (s : ServiceItem) : OrderSummary :=
  { order_id := "PREVIEW"
    services := [s]
    total_price := s.price
    estimated_total_hours := s.estimated_hours
    created_at := "" }

/-! ### Hybrid conversation agent (`Model_2/agent_hybrid.py`, `hybrid_agent`) -/

/-- `SessionState` of the hybrid agent; history entries are
(user content, intent). -/
structure HSession where
  conversation_state : String
  context : Ctx
  history : List (String × String)
  suggested_services : List ServiceItem
  selected_services : List ServiceItem
  pending_order : Option OrderSummary
  current_query : Option String
  deriving DecidableEq

/-- A fresh session. -/
def newHSession : HSession :=
  { conversation_state := "greeting", context := emptyCtx, history := [],
    suggested_services := [], selected_services := [],
    pending_order := none, current_query := none }

/-- The JSON reply of the `/agent` endpoint, minus the free-text
`response` field (that text is produced partly by the external
generative model). -/
structure AgentResponse where
  intent : String
  conversation_state : String
  show_services : Bool
  services : List ServiceItem
  selected_services : List ServiceItem
  order_summary : Option OrderSummary
  order_created : Option OrderSummary
  deriving DecidableEq

/-- `session.context.update(context)`: the extracted dict always carries
all three keys, so each key of the stored context is overwritten with the
new value (including `None`). -/
def ctxUpdate (_old new : Ctx) : Ctx :=
  { garment_type := new.garment_type
    damage_type := new.damage_type
    fabric_type := new.fabric_type }

/-- The reply of the failed-selection fallback path (intent `unknown`,
state unchanged). -/
def fallbackResp (s : HSession) : HSession × AgentResponse :=
  (s, { intent := "unknown", conversation_state := s.conversation_state,
        show_services := !s.suggested_services.isEmpty,
        services := s.suggested_services, selected_services := [],
        order_summary := none, order_created := none })

/-- The reply of the final catch-all generative response (state
unchanged). -/
def generalResp (s : HSession) (intent : String) : HSession × AgentResponse :=
  (s, { intent := intent, conversation_state := s.conversation_state,
        show_services := false, services := [], selected_services := [],
        order_summary := none, order_created := none })

/-- One `/agent` turn of `hybrid_agent`.  External inputs are arguments:
`resp` is the raw generative-classifier reply used by intent detection,
`sr` the service list returned by `query_fikse_search` for this input,
`oid`/`ts` the generated order id and timestamp used on confirmation. -/
def hybridAgentStep (resp : Option String) (sr : List ServiceItem)
    (oid ts : String) (s0 : HSession) (input : String) : HSession × AgentResponse :=
  let det := detect_intent_and_context resp input
  let intent := det.1
  let ctx := det.2
  let s := { s0 with context := ctxUpdate s0.context ctx,
                     history := s0.history ++ [(input, intent)] }
  if intent = "repair_request" then
    let s2 := { s with suggested_services := sr.take 5,
                       conversation_state := if sr.isEmpty then "searching" else "selecting",
                       current_query := some input }
    (s2, { intent := intent, conversation_state := s2.conversation_state,
           show_services := !sr.isEmpty, services := s2.suggested_services,
           selected_services := [], order_summary := none, order_created := none })
  else if intent = "service_selection" then
    if s.suggested_services.isEmpty then fallbackResp s
    else
      match pyInt input with
      | none => fallbackResp s
      | some n =>
        if 1 ≤ n ∧ n ≤ s.suggested_services.length then
          match s.suggested_services.get? (n.toNat - 1) with
          | some sel =>
            let s2 := { s with selected_services := [sel],
                               conversation_state := "confirming",
                               pending_order := some (previewOrder sel) }
            (s2, { intent := intent, conversation_state := "confirming",
                   show_services := false, services := [],
                   selected_services := [sel],
                   order_summary := some (previewOrder sel), order_created := none })
          | none => fallbackResp s
        else fallbackResp s
  else if intent = "confirmation" ∧ s.conversation_state = "confirming" then
    if s.selected_services.isEmpty then generalResp s intent
    else
      let order := hybridFinalizeOrder s.selected_services oid ts
      let s2 := { s with pending_order := some order,
                         conversation_state := "completed" }
      (s2, { intent := intent, conversation_state := "completed",
             show_services := false, services := [], selected_services := [],
             order_summary := none, order_created := some order })
  else if intent = "cancel" then
    if s.conversation_state = "confirming" then
      let s2 := { s with conversation_state := "selecting",
                         selected_services := [], pending_order := none }
      (s2, { intent := intent, conversation_state := "selecting",
             show_services := !s.suggested_services.isEmpty,
             services := s.suggested_services, selected_services := [],
             order_summary := none, order_created := none })
    else
      let s2 := { s with conversation_state := "greeting" }
      (s2, { intent := intent, conversation_state := "greeting",
             show_services := false, services := [], selected_services := [],
             order_summary := none, order_created := none })
  else if intent = "greeting" then
    let s2 := { s with conversation_state := "greeting" }
    (s2, { intent := intent, conversation_state := "greeting",
           show_services := false, services := [], selected_services := [],
           order_summary := none, order_created := none })
  else generalResp s intent

/-- The stored context after one turn (lines 297 to 303 of
`agent_hybrid.py`): extraction always runs, then
`session.context.update(context)`. -/
def agentCtxAfterTurn (resp : Option String) (old : Ctx) (input : String) : Ctx :=
  ctxUpdate old (detect_intent_and_context resp input).2

/-- `selection_number` is rejected: unparseable, below 1, or above the
number of suggestions. -/
def selectionRejected (input : String) (n : Nat) : Bool :=
  match pyInt input with
  | none => true
  | some k => decide (k < 1 ∨ (n : Int) < k)

/-- A term matches at least one of the four fields checked by the
classification loop. -/
def termMatch (r : Row) (t : List Char) : Bool :=
  (t == serviceL r) || occursIn t (serviceL r) || occursIn t (descL r)
    || occursIn t (garmentL r) || occursIn t (repairerL r)

/-- No search term matches any field of the row. -/
def noTermMatch (r : Row) (terms : List (List Char)) : Bool :=
  terms.all fun t => !termMatch r t

/-- An entry of one of the two service buckets. -/
def srvTag (e : String × List Char) : Bool :=
  e.1 == "exact_service" || e.1 == "partial_service"

/-! ## Theorems -/

/-! ### Character and string lemmas -/

theorem digit_toLower (c : Char) (h : c.isDigit = true) : c.toLower = c := by
  simp [Char.isDigit] at h
  simp [Char.toLower, Char.toNat]
  intro h1 h2
  exfalso
  obtain ⟨a, b⟩ := h
  rw [UInt32.le_def, BitVec.le_def] at a b
  simp [UInt32.toNat] at h1 h2
  have e1 : ((48 : UInt32).toBitVec).toNat = 48 := rfl
  have e2 : ((57 : UInt32).toBitVec).toNat = 57 := rfl
  rw [e1] at a
  rw [e2] at b
  omega

theorem ws_toLower (c : Char) (h : c.isWhitespace = true) : c.toLower = c := by
  simp [Char.isWhitespace] at h
  rcases h with ((h | h) | h) | h <;> subst h <;> decide

theorem mem_dropWhile_of_not {p : Char → Bool} {c : Char} :
    ∀ {l : List Char}, c ∈ l → p c = false → c ∈ l.dropWhile p := by
  intro l
  induction l with
  | nil => intro h; cases h
  | cons a as ih =>
    intro hc hp
    by_cases hpa : p a = true
    · rw [List.dropWhile_cons_of_pos hpa]
      rcases List.mem_cons.1 hc with rfl | hmem
      · rw [hp] at hpa; cases hpa
      · exact ih hmem hp
    · rw [List.dropWhile_cons_of_neg hpa]
      exact hc

theorem mem_pyStrip {c : Char} {l : List Char} (hc : c ∈ l) (hws : isWS c = false) :
    c ∈ pyStrip l := by
  unfold pyStrip
  rw [List.mem_reverse]
  apply mem_dropWhile_of_not _ hws
  rw [List.mem_reverse]
  exact mem_dropWhile_of_not hc hws

theorem leadsWith_head_mem {c : Char} {w t : List Char}
    (h : leadsWith (c :: w) t = true) : c ∈ t := by
  cases t with
  | nil => simp [leadsWith] at h
  | cons b bs =>
    simp only [leadsWith, Bool.and_eq_true, beq_iff_eq] at h
    exact h.1 ▸ List.mem_cons_self b bs

theorem wwSearchAux_head_mem {c : Char} {w : List Char} :
    ∀ {t : List Char} {p : Option Char}, wwSearchAux (c :: w) p t = true → c ∈ t := by
  intro t
  induction t with
  | nil => intro p h; simp [wwSearchAux, leadsWith] at h
  | cons b bs ih =>
    intro p h
    simp only [wwSearchAux, Bool.or_eq_true, Bool.and_eq_true] at h
    rcases h with ⟨⟨_, hl⟩, _⟩ | hrec
    · exact leadsWith_head_mem hl
    · exact List.mem_cons_of_mem b (ih hrec)

theorem occursIn_of_wwSearchAux {w : List Char} :
    ∀ {t : List Char} {p : Option Char}, wwSearchAux w p t = true → occursIn w t = true := by
  intro t
  induction t with
  | nil =>
    intro p h
    simp only [wwSearchAux, Bool.and_eq_true] at h
    simp only [occursIn]
    cases w with
    | nil => rfl
    | cons a as => simp [leadsWith] at h
  | cons b bs ih =>
    intro p h
    simp only [wwSearchAux, Bool.or_eq_true, Bool.and_eq_true] at h
    simp only [occursIn, Bool.or_eq_true]
    rcases h with ⟨⟨_, hl⟩, _⟩ | hrec
    · exact Or.inl hl
    · exact Or.inr (ih hrec)

theorem occursIn_head_mem {c : Char} {w : List Char} :
    ∀ {t : List Char}, occursIn (c :: w) t = true → c ∈ t := by
  intro t
  induction t with
  | nil => intro h; simp [occursIn] at h
  | cons b bs ih =>
    intro h
    simp only [occursIn, Bool.or_eq_true] at h
    rcases h with hl | hrec
    · exact leadsWith_head_mem hl
    · exact List.mem_cons_of_mem b (ih hrec)

theorem numeric_chars {s : String} (h : pyNumericMatch s = true) :
    ∀ a ∈ lowerS s, a.isWhitespace = true ∨ a.isDigit = true := by
  intro a ha
  simp only [lowerS, lowerL, lowChar, List.mem_map] at ha
  obtain ⟨c, hc, rfl⟩ := ha
  simp only [pyNumericMatch, Bool.and_eq_true, List.all_eq_true] at h
  by_cases hws : isWS c = true
  · left
    rw [ws_toLower c hws]
    exact hws
  · right
    have hdig : c.isDigit = true := h.2 c (mem_pyStrip hc (by simpa using hws))
    rw [digit_toLower c hdig]
    exact hdig

theorem confirm_not_numeric {s : String} (h : confirmHit (lowerS s) = true) :
    pyNumericMatch s = false := by
  by_contra hnum
  have hnum2 : pyNumericMatch s = true := by
    cases hx : pyNumericMatch s
    · exact absurd hx hnum
    · rfl
  have hclass := numeric_chars hnum2
  simp only [confirmHit, anyWholeWord, List.any_eq_true, Bool.or_eq_true] at h
  have bad : ∀ c ∈ lowerS s, c = 'y' ∨ c = 'c' ∨ c = 'o' ∨ c = 'l' → False := by
    intro c hc hone
    rcases hclass c hc with hws | hdig <;>
      rcases hone with rfl | rfl | rfl | rfl <;> simp_all
  rcases h with ⟨w, hw, hww⟩ | hlg
  · simp only [List.mem_cons, List.not_mem_nil, or_false] at hw
    rcases hw with rfl | rfl | rfl | rfl
    · exact bad 'y' (wwSearchAux_head_mem (w := "es".data) hww) (by simp)
    · exact bad 'c' (wwSearchAux_head_mem (w := "onfirm".data) hww) (by simp)
    · exact bad 'o' (wwSearchAux_head_mem (w := "kay".data) hww) (by simp)
    · exact bad 'o' (wwSearchAux_head_mem (w := "k".data) hww) (by simp)
  · exact bad 'l' (occursIn_head_mem (w := "ooks good".data) hlg) (by simp)

/-! ### C5: intent rule precedence -/

/-- C5.  Intent classification applies its rules in fixed precedence and
the first matching rule decides: purely numeric input gives
`service_selection`; otherwise a confirmation hit gives `confirmation`;
otherwise a cancel hit gives `cancel`; otherwise a greeting hit gives
`greeting`; otherwise any extracted context gives `repair_request`.  In
particular an input with both a confirmation term and a cancel term is
classified `confirmation` (a confirmation hit forces the numeric rule to
fail, since a purely numeric input has only whitespace and digits). -/
theorem claim5_thm (resp : Option String) (text : String) :
    (pyNumericMatch text = true →
      (detect_intent_and_context resp text).1 = "service_selection") ∧
    (pyNumericMatch text = false → confirmHit (lowerS text) = true →
      (detect_intent_and_context resp text).1 = "confirmation") ∧
    (pyNumericMatch text = false → confirmHit (lowerS text) = false →
      cancelHit (lowerS text) = true →
      (detect_intent_and_context resp text).1 = "cancel") ∧
    (pyNumericMatch text = false → confirmHit (lowerS text) = false →
      cancelHit (lowerS text) = false → greetHit (lowerS text) = true →
      (detect_intent_and_context resp text).1 = "greeting") ∧
    (pyNumericMatch text = false → confirmHit (lowerS text) = false →
      cancelHit (lowerS text) = false → greetHit (lowerS text) = false →
      ctxAny (extractContext text) = true →
      (detect_intent_and_context resp text).1 = "repair_request") ∧
    (pyNumericMatch text = false →
      (wholeWordIn "yes" (lowerS text) = true ∨
       wholeWordIn "confirm" (lowerS text) = true ∨
       wholeWordIn "ok" (lowerS text) = true ∨
       wholeWordIn "looks good" (lowerS text) = true) →
      (detect_intent_and_context resp text).1 = "confirmation") ∧
    (confirmHit (lowerS text) = true → cancelHit (lowerS text) = true →
      (detect_intent_and_context resp text).1 = "confirmation") := by
  have hterm : ∀ h2 : wholeWordIn "yes" (lowerS text) = true ∨
      wholeWordIn "confirm" (lowerS text) = true ∨
      wholeWordIn "ok" (lowerS text) = true ∨
      wholeWordIn "looks good" (lowerS text) = true,
      confirmHit (lowerS text) = true := by
    intro h2
    unfold confirmHit anyWholeWord
    rw [Bool.or_eq_true, List.any_eq_true]
    rcases h2 with h | h | h | h
    · exact Or.inl ⟨"yes", by simp, h⟩
    · exact Or.inl ⟨"confirm", by simp, h⟩
    · exact Or.inl ⟨"ok", by simp, h⟩
    · exact Or.inr (occursIn_of_wwSearchAux h)
  refine ⟨?_, ?_, ?_, ?_, ?_, ?_, ?_⟩
  · intro h1
    simp [detect_intent_and_context, h1]
  · intro h1 h2
    simp [detect_intent_and_context, h1, h2]
  · intro h1 h2 h3
    simp [detect_intent_and_context, h1, h2, h3]
  · intro h1 h2 h3 h4
    simp [detect_intent_and_context, h1, h2, h3, h4]
  · intro h1 h2 h3 h4 h5
    simp [detect_intent_and_context, h1, h2, h3, h4, h5]
  · intro h1 h2
    simp [detect_intent_and_context, h1, hterm h2]
  · intro h2 _
    simp [detect_intent_and_context, confirm_not_numeric h2, h2]

/-- Witness for C5 at the concrete input "yes no": both a confirmation
and a cancel term occur, and the intent is `confirmation`. -/
theorem claim5_w :
    confirmHit (lowerS "yes no") = true ∧ cancelHit (lowerS "yes no") = true ∧
    (detect_intent_and_context none "yes no").1 = "confirmation" :=
  ⟨by decide, by decide,
    (claim5_thm none "yes no").2.2.2.2.2.2 (by decide) (by decide)⟩

/-! ### C2: session context is clobbered, not cumulatively merged -/

/-- C2.  Context extraction does run on every turn, but
`session.context.update(context)` overwrites all three categories with
the new extraction (including `None`): after the first turn the stored
context holds garment "silk dress", fabric "silk" and damage "tear", yet
after the following bare confirmation "yes" (classified `confirmation`)
the stored context is entirely `None` — the earlier entities are lost,
contradicting the claimed retention. -/
theorem claim2_eval :
    agentCtxAfterTurn none emptyCtx "I have a silk dress with a small tear" =
      ⟨some "silk dress", some "tear", some "silk"⟩ ∧
    (detect_intent_and_context none "yes").1 = "confirmation" ∧
    (detect_intent_and_context none "yes").2 = emptyCtx ∧
    agentCtxAfterTurn none
      (agentCtxAfterTurn none emptyCtx "I have a silk dress with a small tear")
      "yes" = emptyCtx := by
  refine ⟨by decide, by decide, by decide, by decide⟩

/-! ### C3: the order builder does not reject an empty selection -/

/-- Counterexample to C3 as stated: called with an empty service list the
order builder succeeds and produces an `OrderSummary` (empty service
list, total price 0, absent hours) — no `EmptySelection` failure exists
in `create_order_summary`. -/
theorem claim3_cex :
    create_order_summary [] "ORD-00000000" "2025-01-01 00:00:00" =
      { order_id := "ORD-00000000", services := [], total_price := 0,
        estimated_total_hours := none, created_at := "2025-01-01 00:00:00" } := by
  decide

/-- C3 amended: for every call of the order builder with an empty list of
services, the build succeeds and returns an `OrderSummary` with an empty
service list, total price 0 and absent total hours (rejection of empty
selections happens only in the caller, which never invokes the builder
with an empty selection). -/
theorem claim3_amended (oid ts : String) :
    create_order_summary [] oid ts =
      { order_id := oid, services := [], total_price := 0,
        estimated_total_hours := none, created_at := ts } := by
  rfl

/-! ### C6: order totals -/

theorem truthyHours_sum (ss : List ServiceItem) :
    (truthyHours ss).sum = (presentHours ss).sum := by
  induction ss with
  | nil => rfl
  | cons s rest ih =>
    simp only [truthyHours, presentHours, List.filterMap_cons] at *
    cases hh : s.estimated_hours with
    | none => simpa using ih
    | some h =>
      by_cases h0 : h = 0
      · subst h0
        simpa using ih
      · simp only [if_neg h0, List.sum_cons]
        rw [ih]

/-- Counterexample to C6 as stated: in the hybrid agent finalization,
when the single selected service has no defined hours the aggregate is
reported as `0`, not as absent. -/
theorem claim6_cex :
    presentHours [⟨"service_1", "Hem fix", "fix hems", 100, "dress", "tailor", none⟩] = [] ∧
    (hybridFinalizeOrder
        [⟨"service_1", "Hem fix", "fix hems", 100, "dress", "tailor", none⟩]
        "ORD-AAAAAAAA" "2025-01-01 00:00:00").estimated_total_hours = some 0 := by
  refine ⟨rfl, by decide⟩

/-- C6 amended: for every non-empty service list both builders report a
total price equal to the sum of the item prices, and a total-hours
aggregate equal to the sum of the present hours values (absent hours
contribute zero); `create_order_summary` reports the aggregate as absent
when no item has defined hours, while the hybrid agent finalization
reports the numeric sum in every case (hence `0` instead of absent when
no item has defined hours). -/
theorem claim6_amended (ss : List ServiceItem) (oid ts : String) (_hne : ss ≠ []) :
    (create_order_summary ss oid ts).total_price = (ss.map (·.price)).sum ∧
    (hybridFinalizeOrder ss oid ts).total_price = (ss.map (·.price)).sum ∧
    (presentHours ss = [] →
      (create_order_summary ss oid ts).estimated_total_hours = none) ∧
    (presentHours ss ≠ [] →
      (create_order_summary ss oid ts).estimated_total_hours = some (presentHours ss).sum) ∧
    (hybridFinalizeOrder ss oid ts).estimated_total_hours = some (presentHours ss).sum := by
  refine ⟨rfl, rfl, ?_, ?_, ?_⟩
  · intro h
    simp [create_order_summary, h]
  · intro h
    simp [create_order_summary, List.isEmpty_iff, h]
  · simp [hybridFinalizeOrder, truthyHours_sum]

/-- Witness for C6 amended at a concrete two-item order (one item with
hours, one without). -/
theorem claim6_w :
    ([⟨"service_1", "Zip fix", "fix zips", 300, "jacket", "tailor", some 2⟩,
      ⟨"service_2", "Hem fix", "fix hems", 100, "dress", "tailor", none⟩]
        : List ServiceItem) ≠ [] ∧
    (create_order_summary
        [⟨"service_1", "Zip fix", "fix zips", 300, "jacket", "tailor", some 2⟩,
         ⟨"service_2", "Hem fix", "fix hems", 100, "dress", "tailor", none⟩]
        "ORD-BBBBBBBB" "2025-01-01 00:00:00").total_price =
      (([⟨"service_1", "Zip fix", "fix zips", 300, "jacket", "tailor", some 2⟩,
         ⟨"service_2", "Hem fix", "fix hems", 100, "dress", "tailor", none⟩]
          : List ServiceItem).map (·.price)).sum :=
  ⟨by decide,
    (claim6_amended
      [⟨"service_1", "Zip fix", "fix zips", 300, "jacket", "tailor", some 2⟩,
       ⟨"service_2", "Hem fix", "fix hems", 100, "dress", "tailor", none⟩]
      "ORD-BBBBBBBB" "2025-01-01 00:00:00" (by decide)).1⟩

/-! ### C1: bucket classification -/

theorem rowScan_labels (r : Row) :
    ∀ terms, ∀ e ∈ rowScan r terms,
      e.1 = "exact_service" ∨ e.1 = "partial_service" ∨
      e.1 = "description" ∨ e.1 = "general" := by
  intro terms
  induction terms with
  | nil => intro e he; cases he
  | cons t ts ih =>
    intro e he
    unfold rowScan at he
    split at he
    · simp only [List.mem_singleton] at he
      subst he; left; rfl
    · split at he
      · simp only [List.mem_singleton] at he
        subst he; right; left; rfl
      · split at he
        · rcases List.mem_cons.1 he with rfl | hm
          · right; right; left; rfl
          · exact ih e hm
        · split at he
          · rcases List.mem_cons.1 he with rfl | hm
            · right; right; right; rfl
            · exact ih e hm
          · exact ih e he

theorem mem_dropLast_cons {α : Type} {e a : α} {l : List α}
    (h : e ∈ (a :: l).dropLast) : e = a ∨ e ∈ l.dropLast := by
  cases l with
  | nil => simp at h
  | cons b bs =>
    have hd : (a :: b :: bs).dropLast = a :: (b :: bs).dropLast := rfl
    rw [hd] at h
    exact List.mem_cons.1 h

theorem rowScan_srv (r : Row) :
    ∀ terms, (∀ e ∈ (rowScan r terms).dropLast, srvTag e = false) ∧
      (rowScan r terms).countP srvTag ≤ 1 := by
  intro terms
  induction terms with
  | nil =>
    refine ⟨?_, ?_⟩
    · intro e he
      simp [rowScan] at he
    · simp [rowScan, List.countP_nil]
  | cons t ts ih =>
    unfold rowScan
    split
    · refine ⟨?_, ?_⟩
      · intro e he
        simp [List.dropLast_single] at he
      · simp [List.countP_cons, List.countP_nil, srvTag]
    · split
      · refine ⟨?_, ?_⟩
        · intro e he
          simp [List.dropLast_single] at he
        · simp [List.countP_cons, List.countP_nil, srvTag]
      · split
        · refine ⟨?_, ?_⟩
          · intro e he
            rcases mem_dropLast_cons he with rfl | hm
            · rfl
            · exact ih.1 e hm
          · rw [List.countP_cons]
            simpa using ih.2
        · split
          · refine ⟨?_, ?_⟩
            · intro e he
              rcases mem_dropLast_cons he with rfl | hm
              · rfl
              · exact ih.1 e hm
            · rw [List.countP_cons]
              simpa using ih.2
          · exact ih

theorem rowScan_eq_nil_iff (r : Row) :
    ∀ terms, (rowScan r terms = [] ↔ noTermMatch r terms = true) := by
  intro terms
  induction terms with
  | nil => simp [rowScan, noTermMatch]
  | cons t ts ih =>
    unfold rowScan
    simp only [noTermMatch, List.all_cons, Bool.and_eq_true, Bool.not_eq_true] at *
    unfold termMatch
    split
    · rename_i h
      simp [h]
    · split
      · rename_i h1 h2
        simp [h1, h2]
      · split
        · rename_i h1 h2 h3
          simp [h1, h2, h3]
        · split
          · rename_i h1 h2 h3 h4
            simp only [Bool.or_eq_true] at h4
            rcases h4 with h4 | h4 <;> simp [h1, h2, h3, h4]
          · rename_i h1 h2 h3 h4
            simp only [Bool.or_eq_true, not_or] at h4
            simp only [beq_iff_eq] at h1
            rw [ih]
            constructor
            · intro hall
              refine ⟨?_, hall⟩
              simp [h1, h2, h3, h4.1, h4.2]
            · intro hall
              exact hall.2

/-- Counterexample to C1 as stated: with corrected query "zipper jacket"
a candidate whose description contains "zipper" and whose garment type is
"jacket" is appended to two buckets (description and general), because
only service-field matches leave the term loop — the candidate is not
classified into exactly one bucket decided by the first matching term. -/
theorem claim1_cex :
    (rowBuckets ⟨"fix", "zipper and hem repair", "jacket", "tailor", some 100⟩
        (searchTerms "zipper jacket")).map Prod.fst = ["description", "general"] ∧
    (rowBuckets ⟨"fix", "zipper and hem repair", "jacket", "tailor", some 100⟩
        (searchTerms "zipper jacket")).length = 2 := by
  refine ⟨by decide, by decide⟩

/-- C1 amended: each candidate is appended once per matching term: a term
matching the service name (exactly or as a substring) classifies the
candidate and stops the scan, so the combined exact/partial service
buckets receive at most one entry per candidate, and only as its last
entry; a term matching the description or the garment/repairer fields
appends without stopping, so one candidate can occupy several bucket
entries; a candidate with no matching term is placed exactly once, in the
semantic bucket, and that happens exactly when no term matches. -/
theorem claim1_amended (r : Row) (terms : List (List Char)) :
    rowBuckets r terms ≠ [] ∧
    (rowBuckets r terms).countP srvTag ≤ 1 ∧
    (∀ e ∈ (rowBuckets r terms).dropLast, srvTag e = false) ∧
    (noTermMatch r terms = true ↔
      rowBuckets r terms = [("semantic", "semantic_only".data)]) := by
  rcases hscan : rowScan r terms with _ | ⟨e0, es⟩
  · have hb : rowBuckets r terms = [("semantic", "semantic_only".data)] := by
      unfold rowBuckets
      rw [hscan]
    rw [hb]
    refine ⟨by simp, ?_, ?_, ?_⟩
    · simp [List.countP_cons, List.countP_nil, srvTag]
    · intro e he
      simp at he
    · constructor
      · intro _
        rfl
      · intro _
        rw [← rowScan_eq_nil_iff]
        exact hscan
  · have hb : rowBuckets r terms = e0 :: es := by
      unfold rowBuckets
      rw [hscan]
    rw [hb]
    refine ⟨by simp, ?_, ?_, ?_⟩
    · rw [← hscan]
      exact (rowScan_srv r terms).2
    · rw [← hscan]
      exact (rowScan_srv r terms).1
    · constructor
      · intro hno
        rw [← rowScan_eq_nil_iff r terms, hscan] at hno
        cases hno
      · intro heq
        have h0 : e0 ∈ rowScan r terms := by
          rw [hscan]
          exact List.mem_cons_self e0 es
        have hlab := rowScan_labels r terms e0 h0
        have he0 : e0 = ("semantic", "semantic_only".data) := by
          injection heq with h1 _
        rw [he0] at hlab
        rcases hlab with h | h | h | h <;> exact absurd h (by decide)

/-- Witness for C1 amended at the counterexample candidate: the bucket
list is nonempty and its first (non-final) entry is not a service-bucket
entry. -/
theorem claim1_amended_w :
    rowBuckets ⟨"fix", "zipper and hem repair", "jacket", "tailor", some 100⟩
      (searchTerms "zipper jacket") ≠ [] ∧
    srvTag ("description", "description:zipper".data) = false :=
  ⟨(claim1_amended ⟨"fix", "zipper and hem repair", "jacket", "tailor", some 100⟩
      (searchTerms "zipper jacket")).1,
   (claim1_amended ⟨"fix", "zipper and hem repair", "jacket", "tailor", some 100⟩
      (searchTerms "zipper jacket")).2.2.1
      ("description", "description:zipper".data) (by decide)⟩

/-! ### C4: assembly characterization and ordering -/

theorem scoreGE_trans : ∀ a b c, scoreGE a b → scoreGE b c → scoreGE a c := by
  intro a b c hab hbc
  simp only [scoreGE, decide_eq_true_eq] at *
  exact le_trans hbc hab

theorem scoreGE_total : ∀ a b, scoreGE a b || scoreGE b a := by
  intro a b
  simp only [scoreGE, Bool.or_eq_true, decide_eq_true_eq]
  exact le_total b.2.1 a.2.1

theorem mem_insertLe {α : Type} (le : α → α → Bool) (a x : α) :
    ∀ l, x ∈ insertLe le a l → x = a ∨ x ∈ l := by
  intro l
  induction l with
  | nil =>
    intro h
    simp [insertLe] at h
    exact Or.inl h
  | cons b bs ih =>
    intro h
    unfold insertLe at h
    split at h
    · rcases List.mem_cons.1 h with rfl | h2
      · exact Or.inl rfl
      · exact Or.inr h2
    · rcases List.mem_cons.1 h with rfl | h2
      · exact Or.inr (List.mem_cons_self x bs)
      · rcases ih h2 with h3 | h3
        · exact Or.inl h3
        · exact Or.inr (List.mem_cons_of_mem b h3)

theorem pairwise_insertLe {α : Type} (le : α → α → Bool)
    (htr : ∀ a b c, le a b → le b c → le a c)
    (hto : ∀ a b, le a b || le b a) (a : α) :
    ∀ l, l.Pairwise (fun x y => le x y = true) →
      (insertLe le a l).Pairwise fun x y => le x y = true := by
  intro l
  induction l with
  | nil =>
    intro _
    simp [insertLe]
  | cons b bs ih =>
    intro h
    rw [List.pairwise_cons] at h
    unfold insertLe
    split
    · rename_i hab
      rw [List.pairwise_cons]
      refine ⟨?_, List.pairwise_cons.2 h⟩
      intro x hx
      rcases List.mem_cons.1 hx with rfl | h2
      · exact hab
      · exact htr a b x hab (h.1 x h2)
    · rename_i hab
      have hba : le b a = true := by
        have := hto a b
        simp only [Bool.or_eq_true] at this
        rcases this with h3 | h3
        · exact absurd h3 hab
        · exact h3
      rw [List.pairwise_cons]
      refine ⟨?_, ih h.2⟩
      intro x hx
      rcases mem_insertLe le a x bs hx with rfl | h2
      · exact hba
      · exact h.1 x h2

theorem pairwise_stableSortBy {α : Type} (le : α → α → Bool)
    (htr : ∀ a b c, le a b → le b c → le a c)
    (hto : ∀ a b, le a b || le b a) :
    ∀ l : List α, (stableSortBy le l).Pairwise fun x y => le x y = true := by
  intro l
  induction l with
  | nil => simp [stableSortBy]
  | cons a as ih => exact pairwise_insertLe le htr hto a _ ih

theorem sortGroup_pairwise (g : List (Row × ℚ × List Char)) :
    (sortGroup g).Pairwise fun a b => b.2.1 ≤ a.2.1 := by
  have h := pairwise_stableSortBy scoreGE scoreGE_trans scoreGE_total g
  exact h.imp fun hab => by simpa [scoreGE] using hab

theorem labelGroup_label (b : String) (terms : List (List Char))
    (g : List (Row × ℚ × List Char)) :
    ∀ x ∈ labelGroup b terms g, x.match_type = b := by
  intro x hx
  unfold labelGroup at hx
  obtain ⟨e, _, rfl⟩ := List.mem_map.1 hx
  rfl

theorem labelGroup_pairwise (b : String) (terms : List (List Char))
    (g : List (Row × ℚ × List Char)) :
    (labelGroup b terms g).Pairwise fun x y => y.score ≤ x.score := by
  unfold labelGroup
  rw [List.pairwise_map]
  exact sortGroup_pairwise g

theorem take_prepend {α : Type} (n : Nat) (l1 l2 : List α) :
    (l1.take n ++ l2).take n = (l1 ++ l2).take n := by
  rw [List.take_append_eq_append_take, List.take_append_eq_append_take,
    List.take_take, List.length_take, Nat.min_self]
  congr 2
  omega

theorem addGroup_eq (terms : List (List Char)) (acc : List SResult)
    (g : List (Row × ℚ × List Char) × String) (h : acc.length ≤ 10) :
    addGroup terms acc g = (acc ++ labelGroup g.2 terms g.1).take 10 := by
  unfold addGroup labelGroup
  rw [List.take_append_eq_append_take, List.take_of_length_le h]
  split
  · rename_i h10
    have h0 : 10 - acc.length = 0 := by omega
    rw [h0, List.take_zero, List.append_nil]
  · rw [← List.map_take]

theorem foldl_addGroup (terms : List (List Char)) :
    ∀ (gs : List (List (Row × ℚ × List Char) × String)) (acc : List SResult),
      acc.length ≤ 10 →
      gs.foldl (addGroup terms) acc =
        (acc ++ (gs.map fun g => labelGroup g.2 terms g.1).flatten).take 10 := by
  intro gs
  induction gs with
  | nil =>
    intro acc h
    simp [List.take_of_length_le h]
  | cons g gs2 ih =>
    intro acc h
    rw [List.foldl_cons]
    have h2 : (addGroup terms acc g).length ≤ 10 := by
      rw [addGroup_eq terms acc g h]
      exact List.length_take_le _ _
    rw [ih _ h2, addGroup_eq terms acc g h, List.map_cons, List.flatten_cons,
      take_prepend, List.append_assoc]

/-- The assembly loop produces exactly the spec-side description: the
labeled sorted buckets concatenated in priority order, truncated to 10. -/
theorem assembled_eq (c : String) (k : List (Row × ℚ)) :
    assembled c k = specBucketConcat c k := by
  unfold assembled specBucketConcat matchGroups
  rw [foldl_addGroup _ _ _ (by simp), List.nil_append, List.map_map]
  rfl

theorem assembled_length_le (c : String) (k : List (Row × ℚ)) :
    (assembled c k).length ≤ 10 := by
  rw [assembled_eq]
  exact List.length_take_le _ _

/-- Members of the returned list come from the labeled bucket
concatenation. -/
theorem search_core_mem_flatten (c : String) (k : List (Row × ℚ)) :
    ∀ r ∈ search_core c k,
      r ∈ ((bucketLabels.map fun b =>
        labelGroup b (searchTerms c) (bucketOf b (searchTerms c) k)).flatten) := by
  intro r hr
  unfold search_core at hr
  have hr2 := List.mem_of_mem_take hr
  have hr3 : r ∈ assembled c k := by
    split at hr2
    · exact (List.mem_filter.1 hr2).1
    · exact hr2
  rw [assembled_eq] at hr3
  exact List.mem_of_mem_take hr3

theorem pairwise_filter_flatten (Ls : List (String × List SResult))
    (hlab : ∀ pr ∈ Ls, ∀ x ∈ pr.2, x.match_type = pr.1)
    (hsort : ∀ pr ∈ Ls, pr.2.Pairwise fun x y => y.score ≤ x.score)
    (hnd : (Ls.map Prod.fst).Nodup) (b : String) :
    (((Ls.map Prod.snd).flatten).filter fun x => x.match_type == b).Pairwise
      (fun x y => y.score ≤ x.score) := by
  induction Ls with
  | nil => simp
  | cons pr rest ih =>
    simp only [List.map_cons, List.flatten_cons, List.filter_append]
    rw [List.pairwise_append]
    refine ⟨?_, ?_, ?_⟩
    · exact List.Pairwise.sublist (List.filter_sublist _)
        (hsort pr (List.mem_cons_self pr rest))
    · refine ih ?_ ?_ ?_
      · intro q hq
        exact hlab q (List.mem_cons_of_mem pr hq)
      · intro q hq
        exact hsort q (List.mem_cons_of_mem pr hq)
      · exact (List.nodup_cons.1 hnd).2
    · intro x hx y hy
      exfalso
      have hxl : x.match_type = pr.1 :=
        hlab pr (List.mem_cons_self pr rest) x (List.mem_filter.1 hx).1
      have hxb : x.match_type = b := by
        have := (List.mem_filter.1 hx).2
        simpa using this
      have hy1 := List.mem_filter.1 hy
      obtain ⟨L, hL, hyL⟩ := List.mem_flatten.1 hy1.1
      obtain ⟨pr2, hpr2, rfl⟩ := List.mem_map.1 hL
      have hyl : y.match_type = pr2.1 :=
        hlab pr2 (List.mem_cons_of_mem pr hpr2) y hyL
      have hyb : y.match_type = b := by
        have := hy1.2
        simpa using this
      have hfst : pr.1 = pr2.1 := by
        rw [← hxl, hxb, ← hyb, hyl]
      have hnotin : pr.1 ∉ rest.map Prod.fst := (List.nodup_cons.1 hnd).1
      exact hnotin (hfst ▸ List.mem_map_of_mem Prod.fst hpr2)

theorem search_core_sublist_flatten (c : String) (k : List (Row × ℚ)) :
    List.Sublist (search_core c k)
      ((bucketLabels.map fun b =>
        labelGroup b (searchTerms c) (bucketOf b (searchTerms c) k)).flatten) := by
  unfold search_core
  refine List.Sublist.trans (List.take_sublist _ _) ?_
  have hA : List.Sublist (assembled c k)
      ((bucketLabels.map fun b =>
        labelGroup b (searchTerms c) (bucketOf b (searchTerms c) k)).flatten) := by
    rw [assembled_eq c k]
    unfold specBucketConcat
    exact List.take_sublist _ _
  split
  · exact List.Sublist.trans (List.filter_sublist _) hA
  · exact hA

/-- C4.  With the index loaded the endpoint returns at most 10 results,
each labeled with one of the five bucket labels; when no (truthy) target
price was extracted the returned list is exactly the concatenation of the
score-sorted buckets in priority order capped at 10 (each bucket
contributing min(size, remaining slots)); and within each bucket label
the returned results are ordered by similarity score descending. -/
theorem claim4_thm (c : String) (k : List (Row × ℚ)) :
    (search_core c k).length ≤ 10 ∧
    (∀ r ∈ search_core c k, r.match_type ∈ bucketLabels) ∧
    (truthyPrice (extract_price c) = false → search_core c k = specBucketConcat c k) ∧
    (∀ b, ((search_core c k).filter fun r => r.match_type == b).Pairwise
      fun x y => y.score ≤ x.score) := by
  refine ⟨?_, ?_, ?_, ?_⟩
  · unfold search_core
    exact List.length_take_le _ _
  · intro r hr
    have h := search_core_mem_flatten c k r hr
    obtain ⟨L, hL, hrL⟩ := List.mem_flatten.1 h
    obtain ⟨b, hb, rfl⟩ := List.mem_map.1 hL
    rw [labelGroup_label b _ _ r hrL]
    exact hb
  · intro hfalse
    unfold search_core
    rw [if_neg (by rw [hfalse]; exact Bool.false_ne_true)]
    rw [List.take_of_length_le (assembled_length_le c k)]
    exact assembled_eq c k
  · intro b
    have hp := pairwise_filter_flatten
      (bucketLabels.map fun b2 =>
        (b2, labelGroup b2 (searchTerms c) (bucketOf b2 (searchTerms c) k)))
      (by
        intro pr hpr x hx
        obtain ⟨b2, _, rfl⟩ := List.mem_map.1 hpr
        exact labelGroup_label b2 _ _ x hx)
      (by
        intro pr hpr
        obtain ⟨b2, _, rfl⟩ := List.mem_map.1 hpr
        exact labelGroup_pairwise b2 _ _)
      (by
        rw [List.map_map]
        have : (Prod.fst ∘ fun b2 : String =>
            (b2, labelGroup b2 (searchTerms c) (bucketOf b2 (searchTerms c) k))) = id := by
          funext b2
          rfl
        rw [this, List.map_id]
        decide)
      b
    rw [List.map_map] at hp
    have heq : ((fun pr : String × List SResult => pr.2) ∘ fun b2 : String =>
        (b2, labelGroup b2 (searchTerms c) (bucketOf b2 (searchTerms c) k))) =
        fun b2 : String => labelGroup b2 (searchTerms c) (bucketOf b2 (searchTerms c) k) := by
      funext b2
      rfl
    rw [heq] at hp
    exact List.Pairwise.sublist
      (List.Sublist.filter _ (search_core_sublist_flatten c k)) hp

/-- Witness for C4 at a concrete query and candidate: the no-target-price
hypothesis holds for "zip", the returned list equals the spec-side bucket
concatenation, and the single returned result carries a valid label. -/
theorem claim4_w :
    truthyPrice (extract_price "zip") = false ∧
    search_core "zip" [(⟨"zip", "", "", "", some 100⟩, 1)] =
      specBucketConcat "zip" [(⟨"zip", "", "", "", some 100⟩, 1)] ∧
    (⟨⟨"zip", "", "", "", some 100⟩, 1, "exact_service",
      "exact_service:zip".data, ["zip".data]⟩ : SResult).match_type ∈ bucketLabels := by
  refine ⟨by decide, (claim4_thm "zip" _).2.2.1 (by decide), ?_⟩
  refine (claim4_thm "zip" [(⟨"zip", "", "", "", some 100⟩, 1)]).2.1 _ ?_
  have hsc : search_core "zip" [(⟨"zip", "", "", "", some 100⟩, 1)] =
      [⟨⟨"zip", "", "", "", some 100⟩, 1, "exact_service",
        "exact_service:zip".data, ["zip".data]⟩] := by decide
  rw [hsc]
  exact List.mem_cons_self _ _

/-! ### C7: the price filter stage -/

/-- Counterexample to C7 as stated: from the query "zip 00" a 2-digit
target price (value 0) is extracted, yet because `if target_price:` is
Python truthiness the filter is skipped, and a result whose price 100 is
not within 50 of the target stays in the returned list. -/
theorem claim7_cex :
    extract_price "zip 00" = some 0 ∧
    search_core "zip 00" [(⟨"zip", "", "", "", some 100⟩, 1)] =
      [⟨⟨"zip", "", "", "", some 100⟩, 1, "exact_service",
        "exact_service:zip".data, ["zip".data]⟩] ∧
    is_price_match 0
      ⟨⟨"zip", "", "", "", some 100⟩, 1, "exact_service",
        "exact_service:zip".data, ["zip".data]⟩ = false := by
  refine ⟨by decide, by decide, by decide⟩

/-- C7 amended: for every query from which a nonzero 2-5 digit target
price was extracted, the filter is applied after ranking and truncation
and keeps exactly the assembled items whose price is within 50 of the
target; the result can therefore shrink below 10 with no backfilling.
(When the extracted value is 0 the Python truthiness test skips the
filter.) -/
theorem claim7_amended (c : String) (k : List (Row × ℚ)) (t : Nat)
    (hex : extract_price c = some t) (hnz : t ≠ 0) :
    search_core c k = priceFilter t (assembled c k) ∧
    (∀ r, r ∈ search_core c k ↔ r ∈ assembled c k ∧ is_price_match t r = true) ∧
    (search_core c k).length ≤ (assembled c k).length ∧
    (assembled c k).length ≤ 10 := by
  have htr : truthyPrice (extract_price c) = true := by
    rw [hex]
    simpa [truthyPrice] using hnz
  have hgd : (extract_price c).getD 0 = t := by
    rw [hex]
    rfl
  have hmain : search_core c k = priceFilter t (assembled c k) := by
    unfold search_core
    rw [htr, hgd, if_pos rfl]
    refine List.take_of_length_le ?_
    calc (priceFilter t (assembled c k)).length
        ≤ (assembled c k).length := List.length_filter_le _ _
      _ ≤ 10 := assembled_length_le c k
  refine ⟨hmain, ?_, ?_, assembled_length_le c k⟩
  · intro r
    rw [hmain]
    exact List.mem_filter
  · rw [hmain]
    exact List.length_filter_le _ _

/-- Witness for C7 at the query "zip 100": target 100 is extracted and
the returned list is the price-filtered assembled list. -/
theorem claim7_w :
    extract_price "zip 100" = some 100 ∧ (100 : Nat) ≠ 0 ∧
    search_core "zip 100" [(⟨"zip", "", "", "", some 100⟩, 1)] =
      priceFilter 100 (assembled "zip 100" [(⟨"zip", "", "", "", some 100⟩, 1)]) :=
  ⟨by decide, by decide,
    (claim7_amended "zip 100" [(⟨"zip", "", "", "", some 100⟩, 1)] 100
      (by decide) (by decide)).1⟩

/-! ### C8: rejected selections leave the session unchanged -/

/-- C8.  In phase `selecting`, a `service_selection` turn whose input is
unparseable as a number or whose 1-based index is outside the current
suggestions leaves the phase and the suggested/selected/pending fields
untouched and replies with the re-prompting fallback (intent `unknown`,
same phase, suggestions re-offered). -/
theorem claim8_thm (resp : Option String) (sr : List ServiceItem) (oid ts : String)
    (s : HSession) (input : String)
    (hphase : s.conversation_state = "selecting")
    (hintent : (detect_intent_and_context resp input).1 = "service_selection")
    (hbad : selectionRejected input s.suggested_services.length = true) :
    (hybridAgentStep resp sr oid ts s input).1.conversation_state = "selecting" ∧
    (hybridAgentStep resp sr oid ts s input).1.suggested_services = s.suggested_services ∧
    (hybridAgentStep resp sr oid ts s input).1.selected_services = s.selected_services ∧
    (hybridAgentStep resp sr oid ts s input).1.pending_order = s.pending_order ∧
    (hybridAgentStep resp sr oid ts s input).2.intent = "unknown" ∧
    (hybridAgentStep resp sr oid ts s input).2.conversation_state = "selecting" ∧
    (hybridAgentStep resp sr oid ts s input).2.services = s.suggested_services := by
  unfold hybridAgentStep
  simp only [hintent]
  rw [if_neg (by decide : ¬("service_selection" = "repair_request")), if_pos trivial]
  by_cases hemp : s.suggested_services.isEmpty = true
  · rw [if_pos hemp]
    simp [fallbackResp, hphase]
  · rw [if_neg hemp]
    split
    · simp [fallbackResp, hphase]
    · rename_i n hpi
      unfold selectionRejected at hbad
      rw [hpi] at hbad
      simp only [decide_eq_true_eq] at hbad
      have hcond : ¬(1 ≤ n ∧ n ≤ (s.suggested_services.length : Int)) := by omega
      rw [if_neg hcond]
      simp [fallbackResp, hphase]

/-- Witness for C8: input "99" in phase `selecting` with 3 suggestions
leaves the session unchanged and re-prompts. -/
theorem claim8_w :
    (hybridAgentStep none [] "ORD-CCCCCCCC" "2025-01-01 00:00:00"
      { conversation_state := "selecting", context := emptyCtx, history := [],
        suggested_services :=
          [⟨"service_1", "Hem fix", "fix hems", 100, "dress", "tailor", none⟩,
           ⟨"service_2", "Zip fix", "fix zips", 300, "jacket", "tailor", some 2⟩,
           ⟨"service_3", "Patch", "patch holes", 150, "jeans", "tailor", none⟩],
        selected_services := [], pending_order := none, current_query := none }
      "99").1.conversation_state = "selecting" ∧
    (hybridAgentStep none [] "ORD-CCCCCCCC" "2025-01-01 00:00:00"
      { conversation_state := "selecting", context := emptyCtx, history := [],
        suggested_services :=
          [⟨"service_1", "Hem fix", "fix hems", 100, "dress", "tailor", none⟩,
           ⟨"service_2", "Zip fix", "fix zips", 300, "jacket", "tailor", some 2⟩,
           ⟨"service_3", "Patch", "patch holes", 150, "jeans", "tailor", none⟩],
        selected_services := [], pending_order := none, current_query := none }
      "99").1.pending_order = none ∧
    (hybridAgentStep none [] "ORD-CCCCCCCC" "2025-01-01 00:00:00"
      { conversation_state := "selecting", context := emptyCtx, history := [],
        suggested_services :=
          [⟨"service_1", "Hem fix", "fix hems", 100, "dress", "tailor", none⟩,
           ⟨"service_2", "Zip fix", "fix zips", 300, "jacket", "tailor", some 2⟩,
           ⟨"service_3", "Patch", "patch holes", 150, "jeans", "tailor", none⟩],
        selected_services := [], pending_order := none, current_query := none }
      "99").2.intent = "unknown" := by
  have h := claim8_thm none [] "ORD-CCCCCCCC" "2025-01-01 00:00:00"
    { conversation_state := "selecting", context := emptyCtx, history := [],
      suggested_services :=
        [⟨"service_1", "Hem fix", "fix hems", 100, "dress", "tailor", none⟩,
         ⟨"service_2", "Zip fix", "fix zips", 300, "jacket", "tailor", some 2⟩,
         ⟨"service_3", "Patch", "patch holes", 150, "jeans", "tailor", none⟩],
      selected_services := [], pending_order := none, current_query := none }
    "99" rfl (by decide) (by decide)
  exact ⟨h.1, h.2.2.2.1.trans rfl, h.2.2.2.2.1⟩

/-! ### Price comparison lemmas -/

theorem intAbs_le_iff (x c : Int) : intAbs x ≤ c ↔ -c ≤ x ∧ x ≤ c := by
  cases x with
  | ofNat n => simp only [intAbs, Int.ofNat_eq_natCast]; omega
  | negSucc n => simp only [intAbs, Int.ofNat_eq_natCast, Int.negSucc_eq]; omega

theorem rat_le_cast_iff (p : ℚ) (c : Int) : p ≤ (c : ℚ) ↔ p.num ≤ c * p.den := by
  have hden : (0 : ℚ) < (p.den : ℚ) := by exact_mod_cast p.pos
  conv_lhs => rw [← Rat.num_div_den p]
  rw [div_le_iff₀ hden]
  rw [show ((c : ℚ) * (p.den : ℚ)) = ((c * p.den : Int) : ℚ) by push_cast; ring]
  exact Int.cast_le

theorem cast_le_rat_iff (p : ℚ) (c : Int) : (c : ℚ) ≤ p ↔ c * p.den ≤ p.num := by
  have hden : (0 : ℚ) < (p.den : ℚ) := by exact_mod_cast p.pos
  conv_lhs => rw [← Rat.num_div_den p]
  rw [le_div_iff₀ hden]
  rw [show ((c : ℚ) * (p.den : ℚ)) = ((c * p.den : Int) : ℚ) by push_cast; ring]
  exact Int.cast_le

/-- The integer computation of `priceNear` decides exactly the rational
inequality `abs (p - target) ≤ 50` of the source. -/
theorem priceNear_iff (t : Nat) (p : ℚ) :
    priceNear t p = true ↔ |p - (t : ℚ)| ≤ 50 := by
  unfold priceNear
  rw [decide_eq_true_iff, intAbs_le_iff, abs_le]
  have e1 : p - (t : ℚ) ≤ 50 ↔ p ≤ ((50 + (t : Int) : Int) : ℚ) := by
    push_cast
    constructor <;> intro h <;> linarith
  have e2 : -(50 : ℚ) ≤ p - (t : ℚ) ↔ ((((t : Int) - 50 : Int)) : ℚ) ≤ p := by
    push_cast
    constructor <;> intro h <;> linarith
  rw [e1, e2, rat_le_cast_iff, cast_le_rat_iff, Int.sub_mul, Int.add_mul]
  constructor <;> rintro ⟨a, b⟩ <;> constructor <;> linarith

/-! ### C9 and C10: the price filter -/

/-- C9.  The price filter is idempotent: applying it twice to any
assembled list is the same as applying it once. -/
theorem claim9_thm (t : Nat) (l : List SResult) :
    priceFilter t (priceFilter t l) = priceFilter t l := by
  simp [priceFilter, List.filter_filter]

/-- C10.  A result whose `Price` did not parse as a float is treated as
non-matching (the `try/except` inside `is_price_match` returns `False`,
embedded as the `none` branch of a total function, so the filter cannot
raise), and every such result is removed by the price filter. -/
theorem claim10_thm (t : Nat) (l : List SResult) (r : SResult) :
    (r.row.Price = none → is_price_match t r = false) ∧
    (r ∈ priceFilter t l → r.row.Price ≠ none) := by
  constructor
  · intro h
    simp [is_price_match, h]
  · intro hmem hnone
    have hp := (List.mem_filter.1 hmem).2
    simp [is_price_match, hnone] at hp

/-- Witness for C10: a concrete result with unparseable price is
non-matching, and a concrete parseable result surviving the filter has a
parsed price. -/
theorem claim10_w :
    (⟨⟨"Zip fix", "d", "g", "t", none⟩, 1, "semantic", "semantic_only".data, []⟩
        : SResult).row.Price = none ∧
    is_price_match 100
      (⟨⟨"Zip fix", "d", "g", "t", none⟩, 1, "semantic", "semantic_only".data, []⟩
        : SResult) = false ∧
    (⟨⟨"Zip fix", "d", "g", "t", some 90⟩, 1, "semantic", "semantic_only".data, []⟩
        : SResult) ∈ priceFilter 100
      [⟨⟨"Zip fix", "d", "g", "t", some 90⟩, 1, "semantic", "semantic_only".data, []⟩] ∧
    (⟨⟨"Zip fix", "d", "g", "t", some 90⟩, 1, "semantic", "semantic_only".data, []⟩
        : SResult).row.Price ≠ none :=
  ⟨rfl,
    (claim10_thm 100 [] _).1 rfl,
    List.mem_filter.2 ⟨by simp, by decide⟩,
    (claim10_thm 100
      [⟨⟨"Zip fix", "d", "g", "t", some 90⟩, 1, "semantic", "semantic_only".data, []⟩]
      _).2 (List.mem_filter.2 ⟨by simp, by decide⟩)⟩

end Fikse
